/-
Verification of the asynchronous feedback-enrichment pipeline of the
Render-project repository (FastAPI + SQLAlchemy + Gemini service).

Shallow embedding: the Python functions of app/utils/helpers.py,
app/services/gemini_service.py, app/services/feedback_service.py,
app/sockets/events.py and app/routers/feedback.py are translated into
executable Lean definitions.  Python dictionaries coming from the
classifier are modelled by the JSON value type JVal; database rows by
structures mirroring app/models; datetimes by integers (only their
ordering and an opaque rendering matter to the verified claims); the
event trace of the background task is made explicit.
-/
import Mathlib

/-- JSON-like value, the shape of data parsed from the classifier response
(Python dict / list / str / number / bool / None). -/
inductive JVal where
  | jstr (s : String)
  | jnum (q : ℚ)
  | jbool (b : Bool)
  | jnull
  | jarr (xs : List JVal)
  | jobj (fields : List (String × JVal))

/-- Python `d.get(key)` on a dict modelled as an association list:
first matching key wins, `None` when absent. -/
def pyGet : List (String × JVal) → String → Option JVal
  | [], _ => none
  | (k, v) :: t, key => if k == key then some v else pyGet t key

/-- Python `d.get(key, default)`. -/
def pyGetD (fields : List (String × JVal)) (key : String) (dflt : JVal) : JVal :=
  match pyGet fields key with
  | some v => v
  | none => dflt

/-- Python truthiness of a JSON value (`if urgency_data:`): empty
string/list/dict, zero, False and None are falsy. -/
def pyTruthy : JVal → Bool
  | .jstr s => !(s == "")
  | .jnum q => !(q == 0)
  | .jbool b => b
  | .jnull => false
  | .jarr xs => !xs.isEmpty
  | .jobj f => !f.isEmpty

/-- Python `str()` applied to a scalar JSON value, as used by the
non-dict fallback branch of extract_urgency_level.  Containers are
rendered opaquely; no verified claim reaches that branch. -/
def pyStr : JVal → String
  | .jstr s => s
  | .jnum q => toString q
  | .jbool b => if b then "True" else "False"
  | .jnull => "None"
  | .jarr _ => "<list>"
  | .jobj _ => "<dict>"

/-- Python `x == s` where `s` is a str: true only when `x` is an equal
string (used for every string comparison the code performs on values
coming out of the classifier payload). -/
def pyEqStr (x : JVal) (s : String) : Bool :=
  match x with
  | .jstr t => t == s
  | _ => false

/-- helpers.extract_urgency_level: dict input pulls "level" with default
"low"; a truthy non-dict is coerced with str(); a falsy non-dict gives
"low". -/
def extract_urgency_level (urgency_data : JVal) : JVal :=
  match urgency_data with
  | .jobj f => pyGetD f "level" (.jstr "low")
  | u => if pyTruthy u then .jstr (pyStr u) else .jstr "low"

/-- helpers.extract_urgency_reason: dict input pulls "reason" (None when
absent); non-dict gives None. -/
def extract_urgency_reason (urgency_data : JVal) : Option JVal :=
  match urgency_data with
  | .jobj f => pyGet f "reason"
  | _ => none

/-- helpers.extract_urgency_flags: dict input pulls "flags" defaulting to
the empty list and keeps it only when it is a list; non-dict gives the
empty list. -/
def extract_urgency_flags (urgency_data : JVal) : List JVal :=
  match urgency_data with
  | .jobj f =>
    match pyGetD f "flags" (.jarr []) with
    | .jarr xs => xs
    | _ => []
  | _ => []

/-- helpers.extract_categories: dict input pulls "primary" (None when
absent) and "subcategories" (empty when absent or not a list); non-dict
gives (None, []). -/
def extract_categories (categories_data : JVal) : Option JVal × List JVal :=
  match categories_data with
  | .jobj f =>
    (pyGet f "primary",
      match pyGetD f "subcategories" (.jarr []) with
      | .jarr xs => xs
      | _ => [])
  | _ => (none, [])

/-- Medical-concerns structure built by helpers.extract_medical_concerns. -/
structure MedicalConcerns where
  symptoms : JVal
  complications : JVal
  treatment_side_effects : JVal
  medication_issues : JVal

/-- helpers.extract_medical_concerns: dict input pulls the four sub-keys
each defaulting to an empty list; non-dict gives None. -/
def extract_medical_concerns (concerns_data : JVal) : Option MedicalConcerns :=
  match concerns_data with
  | .jobj f =>
    some
      { symptoms := pyGetD f "symptoms" (.jarr [])
        complications := pyGetD f "complications" (.jarr [])
        treatment_side_effects := pyGetD f "treatment_side_effects" (.jarr [])
        medication_issues := pyGetD f "medication_issues" (.jarr []) }
  | _ => none

/-- helpers.is_critical_urgency on a string. -/
def is_critical_urgency (urgency : String) : Bool :=
  urgency.toLower == "critical"

/-- Structured analysis dict built by GeminiService.analyze_feedback
(gemini_service.py lines 116-138) after a successful parse. -/
structure AnalysisData where
  sentiment : JVal
  confidence_score : ℚ
  emotions : JVal
  urgency : JVal
  urgency_reason : Option JVal
  urgency_flags : List JVal
  primary_category : Option JVal
  subcategories : List JVal
  medical_concerns : Option MedicalConcerns
  actionable_insights : JVal
  key_points : JVal

/-- Python `float(v)` applied to a JSON value: numbers and booleans
convert, other values raise (modelled as none).  The only call site is
`float(analysis_data.get("confidence_score", 0.5))`; the verified
claims exercise the missing-key default, where the argument is the
exact rational 1/2. -/
def pyFloat : JVal → Option ℚ
  | .jnum q => some q
  | .jbool b => some (if b then 1 else 0)
  | _ => none

/-- GeminiService.analyze_feedback, structuring step (lines 116-138):
build the result dict from the parsed payload, with the documented
per-field defaults.  A `float()` failure raises and is caught by the
surrounding `except` (yielding a retryable error dict), modelled as
none. -/
def structureResult (analysis_data : List (String × JVal)) : Option AnalysisData :=
  match pyFloat (pyGetD analysis_data "confidence_score" (.jnum (1/2))) with
  | none => none
  | some conf =>
    some
      { sentiment := pyGetD analysis_data "sentiment" (.jstr "neutral")
        confidence_score := conf
        emotions := pyGetD analysis_data "emotions" (.jarr [])
        urgency := extract_urgency_level (pyGetD analysis_data "urgency" (.jobj []))
        urgency_reason := extract_urgency_reason (pyGetD analysis_data "urgency" (.jobj []))
        urgency_flags := extract_urgency_flags (pyGetD analysis_data "urgency" (.jobj []))
        primary_category := (extract_categories (pyGetD analysis_data "categories" (.jobj []))).1
        subcategories := (extract_categories (pyGetD analysis_data "categories" (.jobj []))).2
        medical_concerns := extract_medical_concerns (pyGetD analysis_data "medical_concerns" (.jobj []))
        actionable_insights := pyGetD analysis_data "actionable_insights" (.jstr "")
        key_points := pyGetD analysis_data "key_points" (.jarr []) }

/-- Possible return dicts of GeminiService.analyze_feedback, as
discriminated by its callers.  Each constructor records one literal
dict shape of gemini_service.py:
ok = the structured result (no "error" key);
notConfigured = line 71 ("error" only, permanent);
parseFailure = line 110 ("error" + "raw_response", no "retry" key);
rateLimited = line 148 ("error" + "retry_after", no "retry" key);
connectionError = line 155 ("error" + "retry": True);
apiError = line 161 ("error" + "retry": True). -/
inductive GeminiResult where
  | ok (data : AnalysisData)
  | notConfigured
  | parseFailure
  | rateLimited (retry_after : ℕ)
  | connectionError
  | apiError (msg : String)

/-- Python `"error" in result` on an analyze_feedback return value. -/
def hasError : GeminiResult → Bool
  | .ok _ => false
  | _ => true

/-- Python `result.get("retry", False)`: only the connection-error and
generic-error dicts carry "retry": True; the rate-limited dict carries
"retry_after" but no "retry" key. -/
def getRetry : GeminiResult → Bool
  | .connectionError => true
  | .apiError _ => true
  | _ => false

/-- GeminiService.analyze_feedback_with_retry, loop body (lines
181-203), one classifier call per iteration.  `call` maps the attempt
index to the outcome of that analyze_feedback invocation; `remaining`
counts the loop iterations still available including the current one,
so the Python guard `attempt < max_retries - 1` is `1 ≤ remaining - 1`,
i.e. `0 < remaining` after peeling the current iteration.  Returns the
final result, the list of sleep durations in seconds in the order they
occur, and the number of classifier calls made.  The `remaining = 0`
case corresponds to `max_retries = 0`, where the Python loop body never
runs and the final `return result` raises NameError; it is modelled by
an error result with zero calls and is unreachable for the actual
`max_retries = 3`. -/
def runAttempts (call : ℕ → GeminiResult) : ℕ → ℕ → GeminiResult × List ℕ × ℕ
  | _, 0 => (.apiError "NameError: result referenced before assignment", [], 0)
  | attempt, remaining + 1 =>
    let result := call attempt
    if hasError result = false then (result, [], 1)
    else if getRetry result = false then (result, [], 1)
    else if 0 < remaining then
      let r := runAttempts call (attempt + 1) remaining
      (r.1, 2 ^ attempt :: r.2.1, r.2.2 + 1)
    else (result, [], 1)

/-- GeminiService.analyze_feedback_with_retry (default max_retries = 3). -/
def analyze_feedback_with_retry (call : ℕ → GeminiResult) (max_retries : ℕ := 3) :
    GeminiResult × List ℕ × ℕ :=
  runAttempts call 0 max_retries

/-- Row of the feedback table (app/models/feedback.py).  Datetimes are
modelled as integers (only their ordering matters to the verified
claims); the surrogate primary key is `id`. -/
structure FeedbackRow where
  id : ℕ
  patient_name : Option String
  visit_date : ℤ
  department : String
  doctor_name : Option String
  feedback_text : String
  rating : ℕ
  status : String
  created_at : ℤ

/-- Row of the analysis table (app/models/analysis.py); `feedback_id`
carries a unique constraint in the schema.  The surrogate primary key
is managed by the store and not modelled. -/
structure AnalysisRow where
  feedback_id : ℕ
  sentiment : JVal
  confidence_score : ℚ
  emotions : JVal
  urgency : JVal
  urgency_reason : Option JVal
  urgency_flags : List JVal
  primary_category : Option JVal
  subcategories : List JVal
  medical_concerns : Option MedicalConcerns
  actionable_insights : JVal
  key_points : JVal

/-- Committed database state: the two tables the pipeline touches. -/
structure DB where
  feedbacks : List FeedbackRow
  analyses : List AnalysisRow

/-- The analysis relationship of a feedback record (uselist=False):
the analysis row whose feedback_id matches, as loaded by selectinload. -/
def analysisFor (db : DB) (fid : ℕ) : Option AnalysisRow :=
  db.analyses.find? (fun a => a.feedback_id == fid)

/-- Number of analysis rows owned by one feedback record. -/
def rowsFor (db : DB) (fid : ℕ) : ℕ :=
  (db.analyses.filter (fun a => a.feedback_id == fid)).length

/-- FeedbackService.get_feedback_by_id: the feedback row with the given
id (with its analysis/actions relationships available via the db). -/
def get_feedback_by_id (db : DB) (feedback_id : ℕ) : Option FeedbackRow :=
  db.feedbacks.find? (fun f => f.id == feedback_id)

/-- Status of a feedback record in the committed state. -/
def statusOf (db : DB) (fid : ℕ) : Option String :=
  (get_feedback_by_id db fid).map (fun f => f.status)

/-- The in-transaction update `feedback.status = "reviewed"` applied to
the row with the given id. -/
def setStatusReviewed (fid : ℕ) (f : FeedbackRow) : FeedbackRow :=
  if f.id == fid then { f with status := "reviewed" } else f

/-- FeedbackService.analyze_feedback_async, lines 174-187: build the
Analysis row from the result dict.  The dict returned by a successful
analyze_feedback always carries every key, so the `.get` defaults of
the service are inert and each field copies the structured value. -/
def mkAnalysisRow (feedback_id : ℕ) (d : AnalysisData) : AnalysisRow :=
  { feedback_id := feedback_id
    sentiment := d.sentiment
    confidence_score := d.confidence_score
    emotions := d.emotions
    urgency := d.urgency
    urgency_reason := d.urgency_reason
    urgency_flags := d.urgency_flags
    primary_category := d.primary_category
    subcategories := d.subcategories
    medical_concerns := d.medical_concerns
    actionable_insights := d.actionable_insights
    key_points := d.key_points }

/-- Persistence-and-notification events observable during one run of
the background analysis task, in program order.  `commit` is the single
`db.commit()` of the success path of analyze_feedback_async, which
stores the Analysis row and the `reviewed` status atomically. -/
inductive PipeEvent where
  | commit
  | emitAnalysisComplete (feedback_id : ℕ) (a : AnalysisRow)
  | emitUrgentAlert (fb : FeedbackRow) (a : AnalysisRow)

/-- Event kind tests used to state ordering/counting properties. -/
def PipeEvent.isCommit : PipeEvent → Bool
  | .commit => true
  | _ => false

def PipeEvent.isEmit : PipeEvent → Bool
  | .commit => false
  | _ => true

def PipeEvent.isUrgentAlert : PipeEvent → Bool
  | .emitUrgentAlert _ _ => true
  | _ => false

def PipeEvent.isAnalysisComplete : PipeEvent → Bool
  | .emitAnalysisComplete _ _ => true
  | _ => false

/-- FeedbackService.analyze_feedback_async (lines 135-194).  `classify`
maps a feedback row and an attempt index to the outcome of that
analyze_feedback call (the real call derives its arguments from the
row).  Returns the committed database state, the value returned to the
caller, and the trace of persistence events.  Paths:
missing record -> None; record already analyzed -> the existing row
unchanged, nothing written; classifier error -> None, nothing written;
success -> insert Analysis row, set status reviewed, one commit. -/
def analyze_feedback_async (db : DB) (classify : FeedbackRow → ℕ → GeminiResult)
    (feedback_id : ℕ) : DB × Option AnalysisRow × List PipeEvent :=
  match get_feedback_by_id db feedback_id with
  | none => (db, none, [])
  | some feedback =>
    match analysisFor db feedback_id with
    | some a => (db, some a, [])
    | none =>
      match (analyze_feedback_with_retry (classify feedback) 3).1 with
      | .ok data =>
        let analysis := mkAnalysisRow feedback_id data
        let db2 : DB :=
          { feedbacks := db.feedbacks.map (setStatusReviewed feedback_id)
            analyses := db.analyses ++ [analysis] }
        (db2, some analysis, [.commit])
      | _ => (db, none, [])

/-- analyze_feedback_background (app/routers/feedback.py lines
120-137).  On a successful analysis it emits analysis_complete and,
when the stored urgency equals the string "critical", re-fetches the
record and emits urgent_alert.  On a None result, line 133 invokes
FeedbackService.mark_analysis_failed, a method that is not defined
anywhere in the repository: the attribute lookup raises AttributeError,
the `except` handler at line 137 invokes the same missing attribute and
raises again, and the task crashes without touching the record status;
the crash is modelled by the final boolean. -/
def analyze_feedback_background (db : DB) (classify : FeedbackRow → ℕ → GeminiResult)
    (feedback_id : ℕ) : DB × List PipeEvent × Bool :=
  match analyze_feedback_async db classify feedback_id with
  | (db2, some analysis, tr) =>
    let urgentEvents :=
      if pyEqStr analysis.urgency "critical" then
        match get_feedback_by_id db2 feedback_id with
        | some feedback => [PipeEvent.emitUrgentAlert feedback analysis]
        | none => []
      else []
    (db2, tr ++ PipeEvent.emitAnalysisComplete feedback_id analysis :: urgentEvents, false)
  | (db2, none, tr) => (db2, tr, true)

/-- Value appearing in an outbound Socket.IO event payload
(app/sockets/events.py): ints, strings, None, rationals, and values
copied verbatim from JSON columns. -/
inductive EVal where
  | eint (v : ℤ)
  | estr (v : String)
  | enull
  | erat (v : ℚ)
  | ejson (v : JVal)
  | elist (v : List JVal)

/-- Python `x if x is not None else None` marshalling of an optional
JSON column into an event payload. -/
def eOpt : Option JVal → EVal
  | some v => .ejson v
  | none => .enull

/-- Opaque rendering of a datetime, standing for `created_at.isoformat()`;
no verified claim depends on the concrete rendering. -/
def datetimeIso (t : ℤ) : String := toString t

/-- Lookup of a key in an event payload dict. -/
def lookupE : List (String × EVal) → String → Option EVal
  | [], _ => none
  | (k, v) :: t, key => if k == key then some v else lookupE t key

/-- emit_new_feedback payload (events.py lines 79-91): includes a
preview of the first 100 characters plus "..." when the text exceeds
100 characters, otherwise the unmodified text. -/
def new_feedback_data (feedback : FeedbackRow) : List (String × EVal) :=
  [("id", .eint feedback.id),
   ("patient_name", match feedback.patient_name with
      | some s => .estr s
      | none => .enull),
   ("department", .estr feedback.department),
   ("rating", .eint feedback.rating),
   ("status", .estr feedback.status),
   ("created_at", .estr (datetimeIso feedback.created_at)),
   ("preview", .estr (if feedback.feedback_text.length > 100 then
      feedback.feedback_text.take 100 ++ "..." else feedback.feedback_text))]

/-- emit_urgent_alert payload (events.py lines 95-110): includes a
feedback_preview of the first 200 characters plus "..." when the text
exceeds 200 characters, otherwise the unmodified text. -/
def urgent_alert_data (feedback : FeedbackRow) (analysis : AnalysisRow) :
    List (String × EVal) :=
  [("feedback_id", .eint feedback.id),
   ("patient_name", match feedback.patient_name with
      | some s => .estr s
      | none => .enull),
   ("department", .estr feedback.department),
   ("urgency", .ejson analysis.urgency),
   ("urgency_reason", eOpt analysis.urgency_reason),
   ("urgency_flags", .elist analysis.urgency_flags),
   ("sentiment", .ejson analysis.sentiment),
   ("primary_category", eOpt analysis.primary_category),
   ("feedback_preview", .estr (if feedback.feedback_text.length > 200 then
      feedback.feedback_text.take 200 ++ "..." else feedback.feedback_text)),
   ("created_at", .estr (datetimeIso feedback.created_at))]

/-- emit_analysis_complete payload (events.py lines 114-124): carries
only ids and categorical fields, no text or preview of any kind. -/
def analysis_complete_data (feedback_id : ℕ) (analysis : AnalysisRow) :
    List (String × EVal) :=
  [("feedback_id", .eint feedback_id),
   ("sentiment", .ejson analysis.sentiment),
   ("urgency", .ejson analysis.urgency),
   ("primary_category", eOpt analysis.primary_category),
   ("confidence_score", .erat analysis.confidence_score)]

/-- Python truthiness of an optional query parameter string
(`if priority:`): absent or empty means no filter. -/
def pyTruthyStr : Option String → Bool
  | some s => !(s == "")
  | none => false

/-- Post-query skip test for the priority filter
(feedback_service.py lines 114-116): skip the record only when the
filter is truthy, the record has an analysis, and the stored urgency
differs from the filter string. -/
def skipByPriority (priority : Option String) (analysis : Option AnalysisRow) : Bool :=
  match priority, analysis with
  | some p, some a => !(p == "") && !(pyEqStr a.urgency p)
  | _, _ => false

/-- Post-query skip test for the sentiment filter (lines 118-120). -/
def skipBySentiment (sentiment : Option String) (analysis : Option AnalysisRow) : Bool :=
  match sentiment, analysis with
  | some s, some a => !(s == "") && !(pyEqStr a.sentiment s)
  | _, _ => false

/-- Post-query skip test for the category filter (lines 122-125): skip
when the primary category differs and the category is not among the
subcategories. -/
def skipByCategory (category : Option String) (analysis : Option AnalysisRow) : Bool :=
  match category, analysis with
  | some c, some a =>
    !(c == "") &&
      !(match a.primary_category with
        | some v => pyEqStr v c
        | none => false) &&
      !(a.subcategories.any (fun v => pyEqStr v c))
  | _, _ => false

/-- SQL WHERE conditions built by get_all_feedback (lines 79-95). -/
def matchesConditions (department : Option String) (start_date end_date : Option ℤ)
    (status : Option String) (f : FeedbackRow) : Bool :=
  (match department with
    | some d => if d == "" then true else f.department == d
    | none => true) &&
  (match start_date with
    | some t => decide (f.visit_date ≥ t)
    | none => true) &&
  (match end_date with
    | some t => decide (f.visit_date ≤ t)
    | none => true) &&
  (match status with
    | some s => if s == "" then true else f.status == s
    | none => true)

/-- Insertion into a created_at-descending list, modelling the SQL
ORDER BY created_at DESC. -/
def insertByCreatedDesc (f : FeedbackRow) : List FeedbackRow → List FeedbackRow
  | [] => [f]
  | g :: gs =>
    if g.created_at ≤ f.created_at then f :: g :: gs
    else g :: insertByCreatedDesc f gs

/-- ORDER BY created_at DESC over the condition-filtered rows. -/
def sortByCreatedDesc (l : List FeedbackRow) : List FeedbackRow :=
  l.foldr insertByCreatedDesc []

/-- The page fetched by the SQL query of get_all_feedback: condition
filters, descending created_at order, OFFSET then LIMIT. -/
def queryPage (db : DB) (department : Option String) (start_date end_date : Option ℤ)
    (status : Option String) (limit offset : ℕ) : List FeedbackRow :=
  (((sortByCreatedDesc (db.feedbacks.filter
      (matchesConditions department start_date end_date status))).drop offset).take limit)

/-- FeedbackService.get_all_feedback (lines 60-133): the count query
computes the total over the condition filters only; the page is then
post-filtered in Python by priority/sentiment/category, and when any of
those filters is truthy the total is recomputed as the length of the
filtered page. -/
def get_all_feedback (db : DB) (department : Option String)
    (start_date end_date : Option ℤ) (priority sentiment category status : Option String)
    (limit offset : ℕ) : List FeedbackRow × ℕ :=
  let conditioned := db.feedbacks.filter (matchesConditions department start_date end_date status)
  let total := conditioned.length
  let feedbacks := ((sortByCreatedDesc conditioned).drop offset).take limit
  let filtered_feedbacks := feedbacks.filter (fun f =>
    !(skipByPriority priority (analysisFor db f.id)) &&
    !(skipBySentiment sentiment (analysisFor db f.id)) &&
    !(skipByCategory category (analysisFor db f.id)))
  let total2 :=
    if pyTruthyStr priority || pyTruthyStr sentiment || pyTruthyStr category then
      filtered_feedbacks.length
    else total
  (filtered_feedbacks, total2)

/-- Python regex class `\s`: space, tab, newline, carriage return,
vertical tab (0x0b) and form feed (0x0c). -/
def isPySpace (c : Char) : Bool :=
  c == ' ' || c == '\t' || c == '\n' || c == '\r' ||
    c == Char.ofNat 11 || c == Char.ofNat 12

/-- The marker of the first re.sub pattern of helpers.parse_json_safely. -/
def fenceJson : List Char := "```json".toList

/-- The marker of the second re.sub pattern of helpers.parse_json_safely. -/
def fence3 : List Char := "```".toList

/-- One re.sub scan for the pattern `marker + backslash-s-star`: at each
position, a leftmost match removes the marker and the following maximal
whitespace run and scanning resumes after the removed region; on no
match the character is kept and scanning moves one position right.  The
first argument is fuel, always instantiated with the length of the
scanned list so that the definition is structural and computes. -/
def subFenceGo (marker : List Char) : ℕ → List Char → List Char
  | 0, l => l
  | _ + 1, [] => []
  | fuel + 1, c :: cs =>
    if marker.isPrefixOf (c :: cs) then
      subFenceGo marker fuel (((c :: cs).drop marker.length).dropWhile isPySpace)
    else c :: subFenceGo marker fuel cs

/-- Python `re.sub(marker + backslash-s-star, "", l)` for a literal
non-empty marker. -/
def subMarker (marker : List Char) (l : List Char) : List Char :=
  subFenceGo marker l.length l

/-- Python str.strip(): remove leading and trailing whitespace. -/
def pyStrip (l : List Char) : List Char :=
  ((l.dropWhile isPySpace).reverse.dropWhile isPySpace).reverse

/-- The string transformation of helpers.parse_json_safely (lines
26-28): strip the json-labelled fence markers, then bare fence markers,
then surrounding whitespace. -/
def cleanFence (l : List Char) : List Char :=
  pyStrip (subMarker fence3 (subMarker fenceJson l))

/-- helpers.parse_json_safely: apply the fence/whitespace cleanup, then
the structural JSON parse.  The parse (Python json.loads, returning
None on JSONDecodeError) is a parameter: every property proved below
holds for any structural parser, in particular for json.loads. -/
def parse_json_safely (loads : List Char → Option α) (json_str : List Char) : Option α :=
  loads (cleanFence json_str)

/-- A payload wrapped in markdown code-fence markers, the shape
tolerated by parse_json_safely: three backticks and the json label, a
newline, the payload, a newline and three closing backticks. -/
def wrapJsonFence (payload : List Char) : List Char :=
  fenceJson ++ '\n' :: (payload ++ '\n' :: fence3)

/-- Sample feedback row used to instantiate the verified properties. -/
def sampleFeedback : FeedbackRow :=
  { id := 1
    patient_name := none
    visit_date := 0
    department := "Cardiology"
    doctor_name := none
    feedback_text := "The wait was far too long and nobody came to help."
    rating := 1
    status := "pending_analysis"
    created_at := 0 }

/-- Sample stored analysis row used to instantiate the verified
properties. -/
def sampleAnalysis : AnalysisRow :=
  { feedback_id := 1
    sentiment := .jstr "negative"
    confidence_score := 9/10
    emotions := .jarr []
    urgency := .jstr "low"
    urgency_reason := none
    urgency_flags := []
    primary_category := none
    subcategories := []
    medical_concerns := none
    actionable_insights := .jstr ""
    key_points := .jarr [] }

/-- Sample structured classifier result with critical urgency. -/
def sampleCriticalData : AnalysisData :=
  { sentiment := .jstr "negative"
    confidence_score := 9/10
    emotions := .jarr []
    urgency := .jstr "critical"
    urgency_reason := some (.jstr "severe chest pain")
    urgency_flags := [.jstr "severe_pain"]
    primary_category := none
    subcategories := []
    medical_concerns := none
    actionable_insights := .jstr ""
    key_points := .jarr [] }

/-- Sample structured classifier result with medium urgency. -/
def sampleMediumData : AnalysisData :=
  { sentiment := .jstr "neutral"
    confidence_score := 1/2
    emotions := .jarr []
    urgency := .jstr "medium"
    urgency_reason := none
    urgency_flags := []
    primary_category := none
    subcategories := []
    medical_concerns := none
    actionable_insights := .jstr ""
    key_points := .jarr [] }

theorem isPrefixOf_iff_exists_append {m l : List Char} :
    m.isPrefixOf l = true ↔ ∃ t, l = m ++ t := by
  induction m generalizing l with
  | nil => simp
  | cons a as ih =>
    cases l with
    | nil => simp
    | cons b bs =>
      rw [List.isPrefixOf_cons₂]
      simp only [Bool.and_eq_true, beq_iff_eq, ih, List.cons_append, List.cons.injEq]
      constructor
      · rintro ⟨hab, t, ht⟩
        exact ⟨t, hab.symm, ht⟩
      · rintro ⟨t, hba, ht⟩
        exact ⟨hba.symm, t, ht⟩

theorem subFenceGo_congr (marker : List Char) (hm : marker ≠ []) :
    ∀ (fuel fuel2 : ℕ) (l : List Char), l.length ≤ fuel → l.length ≤ fuel2 →
      subFenceGo marker fuel l = subFenceGo marker fuel2 l := by
  intro fuel
  induction fuel with
  | zero =>
    intro fuel2 l h1 _
    have hl : l = [] := by
      cases l with
      | nil => rfl
      | cons c cs => simp at h1
    subst hl
    cases fuel2 <;> simp [subFenceGo]
  | succ fuel ih =>
    intro fuel2 l h1 h2
    cases l with
    | nil => cases fuel2 <;> simp [subFenceGo]
    | cons c cs =>
      cases fuel2 with
      | zero => simp at h2
      | succ fuel2 =>
        have hmlen : 1 ≤ marker.length := by
          cases marker with
          | nil => exact absurd rfl hm
          | cons a as => simp
        have hdw : (((c :: cs).drop marker.length).dropWhile isPySpace).length ≤ cs.length := by
          have hs : (((c :: cs).drop marker.length).dropWhile isPySpace).length ≤
              ((c :: cs).drop marker.length).length :=
            (List.dropWhile_sublist _).length_le
          have hd : ((c :: cs).drop marker.length).length = (c :: cs).length - marker.length :=
            List.length_drop _ _
          simp only [List.length_cons] at hd
          omega
        simp only [subFenceGo]
        by_cases hp : marker.isPrefixOf (c :: cs) = true
        · rw [if_pos hp, if_pos hp]
          have hc1 : (((c :: cs).drop marker.length).dropWhile isPySpace).length ≤ fuel := by
            simp only [List.length_cons] at h1; omega
          have hc2 : (((c :: cs).drop marker.length).dropWhile isPySpace).length ≤ fuel2 := by
            simp only [List.length_cons] at h2; omega
          exact ih fuel2 _ hc1 hc2
        · rw [if_neg hp, if_neg hp]
          have hc1 : cs.length ≤ fuel := by simp only [List.length_cons] at h1; omega
          have hc2 : cs.length ≤ fuel2 := by simp only [List.length_cons] at h2; omega
          rw [ih fuel2 cs hc1 hc2]

theorem subMarker_nil (marker : List Char) : subMarker marker [] = [] := rfl

theorem subMarker_cons (marker : List Char) (hm : marker ≠ []) (c : Char) (cs : List Char) :
    subMarker marker (c :: cs) =
      if marker.isPrefixOf (c :: cs) then
        subMarker marker (((c :: cs).drop marker.length).dropWhile isPySpace)
      else c :: subMarker marker cs := by
  have hmlen : 1 ≤ marker.length := by
    cases marker with
    | nil => exact absurd rfl hm
    | cons a as => simp
  have hdw : (((c :: cs).drop marker.length).dropWhile isPySpace).length ≤ cs.length := by
    have hs : (((c :: cs).drop marker.length).dropWhile isPySpace).length ≤
        ((c :: cs).drop marker.length).length :=
      (List.dropWhile_sublist _).length_le
    have hd : ((c :: cs).drop marker.length).length = (c :: cs).length - marker.length :=
      List.length_drop _ _
    simp only [List.length_cons] at hd
    omega
  show subFenceGo marker (cs.length + 1) (c :: cs) = _
  simp only [subFenceGo]
  by_cases hp : marker.isPrefixOf (c :: cs) = true
  · rw [if_pos hp, if_pos hp]
    exact subFenceGo_congr marker hm cs.length _ _ hdw le_rfl
  · rw [if_neg hp, if_neg hp]
    rfl

theorem isPrefixOf_head_eq {a c : Char} {as l : List Char}
    (h : (a :: as).isPrefixOf (c :: l) = true) : a = c := by
  rw [List.isPrefixOf_cons₂] at h
  exact beq_iff_eq.mp ((Bool.and_eq_true _ _).mp h).1

theorem fenceJson_head_not_space {c : Char} {t : List Char}
    (h : fenceJson.isPrefixOf (c :: t) = true) : isPySpace c = false := by
  have hdec : fenceJson = fenceJson.headI :: fenceJson.tail := by decide
  rw [hdec] at h
  rw [← isPrefixOf_head_eq h]
  decide

theorem fence3_head_not_space {c : Char} {t : List Char}
    (h : fence3.isPrefixOf (c :: t) = true) : isPySpace c = false := by
  have hdec : fence3 = fence3.headI :: fence3.tail := by decide
  rw [hdec] at h
  rw [← isPrefixOf_head_eq h]
  decide

theorem subMarker_ws_append (m : List Char) (hm : m ≠ [])
    (hhead : ∀ (c : Char) (t : List Char), m.isPrefixOf (c :: t) = true → isPySpace c = false) :
    ∀ w y : List Char, (∀ c ∈ w, isPySpace c = true) →
      subMarker m (w ++ y) = w ++ subMarker m y := by
  intro w
  induction w with
  | nil => intro y _; rfl
  | cons c w ih =>
    intro y hw
    have hcw : isPySpace c = true := hw c (by simp)
    have hnp : ¬ m.isPrefixOf (c :: (w ++ y)) = true := by
      intro h
      rw [hhead c _ h] at hcw
      exact absurd hcw (by simp)
    rw [List.cons_append, subMarker_cons m hm, if_neg hnp,
      ih y (fun d hd => hw d (by simp [hd]))]
    rfl

theorem subMarker_short (m : List Char) (hm : m ≠ []) :
    ∀ l : List Char, l.length < m.length → subMarker m l = l := by
  intro l
  induction l with
  | nil => intro _; rfl
  | cons c cs ih =>
    intro hlt
    have hnp : ¬ m.isPrefixOf (c :: cs) = true := by
      intro h
      obtain ⟨t, ht⟩ := isPrefixOf_iff_exists_append.mp h
      have hlen : (c :: cs).length = m.length + t.length := by
        rw [ht, List.length_append]
      simp only [List.length_cons] at hlen hlt
      omega
    have hcs : cs.length < m.length := by
      simp only [List.length_cons] at hlt
      omega
    rw [subMarker_cons m hm, if_neg hnp, ih hcs]

theorem no_span_newline (m : List Char) (hnl : ∀ c ∈ m, ¬ c = '\n')
    (l1 t : List Char) (hlen : l1.length < m.length) :
    ¬ m.isPrefixOf (l1 ++ '\n' :: t) = true := by
  intro h
  obtain ⟨r, hr⟩ := isPrefixOf_iff_exists_append.mp h
  have h1 : (l1 ++ '\n' :: t)[l1.length]? = some '\n' := by
    rw [List.getElem?_append_right le_rfl]
    simp
  rw [hr, List.getElem?_append_left hlen] at h1
  exact hnl '\n' (List.getElem?_mem h1) rfl

theorem subMarker_append_marker (m : List Char) (hm : m ≠ []) (z : List Char) :
    subMarker m (m ++ z) = subMarker m (z.dropWhile isPySpace) := by
  obtain ⟨a, as, ha⟩ := List.exists_cons_of_ne_nil hm
  have hsh : m ++ z = a :: (as ++ z) := by rw [ha]; rfl
  have hp : m.isPrefixOf (a :: (as ++ z)) = true := by
    rw [← hsh]
    exact isPrefixOf_iff_exists_append.mpr ⟨z, rfl⟩
  rw [hsh, subMarker_cons m hm, if_pos hp, ← hsh, List.drop_left']
  rfl

theorem fenceJson_fits_inside {c : Char} {cs y : List Char}
    (hge : fenceJson.length ≤ (c :: cs).length)
    (h : fenceJson.isPrefixOf ((c :: cs) ++ y) = true) :
    fenceJson.isPrefixOf (c :: cs) = true := by
  obtain ⟨r, hr⟩ := isPrefixOf_iff_exists_append.mp h
  apply isPrefixOf_iff_exists_append.mpr
  have htake : (c :: cs).take fenceJson.length = fenceJson := by
    have h2 : ((c :: cs) ++ y).take fenceJson.length = fenceJson := by
      rw [hr, List.take_left']
      rfl
    rw [List.take_append_of_le_length hge] at h2
    exact h2
  have hsplit : c :: cs = (c :: cs).take fenceJson.length ++ (c :: cs).drop fenceJson.length :=
    (List.take_append_drop _ _).symm
  rw [htake] at hsplit
  exact ⟨(c :: cs).drop fenceJson.length, hsplit⟩

theorem fence3_fits_inside {c : Char} {cs y : List Char}
    (hge : fence3.length ≤ (c :: cs).length)
    (h : fence3.isPrefixOf ((c :: cs) ++ y) = true) :
    fence3.isPrefixOf (c :: cs) = true := by
  obtain ⟨r, hr⟩ := isPrefixOf_iff_exists_append.mp h
  apply isPrefixOf_iff_exists_append.mpr
  have htake : (c :: cs).take fence3.length = fence3 := by
    have h2 : ((c :: cs) ++ y).take fence3.length = fence3 := by
      rw [hr, List.take_left']
      rfl
    rw [List.take_append_of_le_length hge] at h2
    exact h2
  have hsplit : c :: cs = (c :: cs).take fence3.length ++ (c :: cs).drop fence3.length :=
    (List.take_append_drop _ _).symm
  rw [htake] at hsplit
  exact ⟨(c :: cs).drop fence3.length, hsplit⟩

theorem subJson_append_suffix :
    ∀ (n : ℕ) (s : List Char), s.length ≤ n →
      subMarker fenceJson (s ++ '\n' :: fence3) = subMarker fenceJson s ++ '\n' :: fence3 ∨
      subMarker fenceJson (s ++ '\n' :: fence3) = subMarker fenceJson s ++ fence3 := by
  intro n
  induction n with
  | zero =>
    intro s hs
    have hnil : s = [] := by
      cases s with
      | nil => rfl
      | cons c cs => simp at hs
    subst hnil
    exact Or.inl (by decide)
  | succ n ih =>
    intro s hs
    cases s with
    | nil => exact Or.inl (by decide)
    | cons c cs =>
      by_cases hp : fenceJson.isPrefixOf (c :: cs) = true
      · obtain ⟨rest, hrest⟩ := isPrefixOf_iff_exists_append.mp hp
        have heq : (c :: cs) ++ '\n' :: fence3 = fenceJson ++ (rest ++ '\n' :: fence3) := by
          rw [hrest, List.append_assoc]
        rw [heq, subMarker_append_marker fenceJson (by decide),
          hrest, subMarker_append_marker fenceJson (by decide)]
        by_cases hall : (rest.dropWhile isPySpace).isEmpty = true
        · have hrw : rest.dropWhile isPySpace = [] := List.isEmpty_iff.mp hall
          have h1 : (rest ++ '\n' :: fence3).dropWhile isPySpace =
              ('\n' :: fence3).dropWhile isPySpace := by
            rw [List.dropWhile_append, if_pos hall]
          rw [h1, hrw]
          exact Or.inr (by decide)
        · have h1 : (rest ++ '\n' :: fence3).dropWhile isPySpace =
              rest.dropWhile isPySpace ++ '\n' :: fence3 := by
            rw [List.dropWhile_append, if_neg hall]
          rw [h1]
          apply ih
          have hlr : (c :: cs).length = fenceJson.length + rest.length := by
            rw [hrest, List.length_append]
          have hsub : (rest.dropWhile isPySpace).length ≤ rest.length :=
            (List.dropWhile_sublist _).length_le
          simp only [List.length_cons] at hlr hs
          have hfj : fenceJson.length = 7 := by decide
          omega
      · have hnp2 : ¬ fenceJson.isPrefixOf ((c :: cs) ++ '\n' :: fence3) = true := by
          intro h
          by_cases hlen : (c :: cs).length < fenceJson.length
          · exact no_span_newline fenceJson (by decide) _ _ hlen h
          · exact hp (fenceJson_fits_inside (by omega) h)
        have hcs : cs.length ≤ n := by
          simp only [List.length_cons] at hs
          omega
        rw [List.cons_append] at hnp2
        rw [List.cons_append, subMarker_cons fenceJson (by decide), if_neg hnp2,
          subMarker_cons fenceJson (by decide), if_neg hp]
        rcases ih cs hcs with h | h
        · left
          rw [h]
          rfl
        · right
          rw [h]
          rfl

theorem subFence3_append_fence :
    ∀ (n : ℕ) (x : List Char), x.length ≤ n →
      subMarker fence3 (x ++ fence3) = subMarker fence3 x := by
  intro n
  induction n with
  | zero =>
    intro x hx
    have hnil : x = [] := by
      cases x with
      | nil => rfl
      | cons c cs => simp at hx
    subst hnil
    decide
  | succ n ih =>
    intro x hx
    cases x with
    | nil => decide
    | cons c cs =>
      have hcs : cs.length ≤ n := by
        simp only [List.length_cons] at hx
        omega
      by_cases hp : fence3.isPrefixOf (c :: cs) = true
      · obtain ⟨rest, hrest⟩ := isPrefixOf_iff_exists_append.mp hp
        have heq : (c :: cs) ++ fence3 = fence3 ++ (rest ++ fence3) := by
          rw [hrest, List.append_assoc]
        rw [heq, subMarker_append_marker fence3 (by decide),
          hrest, subMarker_append_marker fence3 (by decide)]
        by_cases hall : (rest.dropWhile isPySpace).isEmpty = true
        · have hrw : rest.dropWhile isPySpace = [] := List.isEmpty_iff.mp hall
          have h1 : (rest ++ fence3).dropWhile isPySpace = fence3.dropWhile isPySpace := by
            rw [List.dropWhile_append, if_pos hall]
          rw [h1, hrw]
          decide
        · have h1 : (rest ++ fence3).dropWhile isPySpace =
              rest.dropWhile isPySpace ++ fence3 := by
            rw [List.dropWhile_append, if_neg hall]
          rw [h1]
          apply ih
          have hlr : (c :: cs).length = fence3.length + rest.length := by
            rw [hrest, List.length_append]
          have hsub : (rest.dropWhile isPySpace).length ≤ rest.length :=
            (List.dropWhile_sublist _).length_le
          simp only [List.length_cons] at hlr hx
          have hf3 : fence3.length = 3 := by decide
          omega
      · by_cases hspan : fence3.isPrefixOf ((c :: cs) ++ fence3) = true
        · have hlen : (c :: cs).length < fence3.length := by
            by_contra hge
            exact hp (fence3_fits_inside (by omega) hspan)
          obtain ⟨r, hr⟩ := isPrefixOf_iff_exists_append.mp hspan
          have htk : c :: cs = fence3.take (c :: cs).length := by
            have h1 : ((c :: cs) ++ fence3).take (c :: cs).length = c :: cs :=
              List.take_left _ _
            rw [hr, List.take_append_of_le_length (by omega)] at h1
            exact h1.symm
          cases cs with
          | nil =>
            have htk1 : [c] = fence3.take 1 := by simpa using htk
            show subMarker fence3 ([c] ++ fence3) = subMarker fence3 [c]
            rw [htk1]
            decide
          | cons c2 cs2 =>
            cases cs2 with
            | nil =>
              have htk2 : [c, c2] = fence3.take 2 := by simpa using htk
              show subMarker fence3 ([c, c2] ++ fence3) = subMarker fence3 [c, c2]
              rw [htk2]
              decide
            | cons c3 cs3 =>
              exfalso
              have : fence3.length = 3 := by decide
              simp only [List.length_cons] at hlen
              omega
        · rw [List.cons_append] at hspan
          rw [List.cons_append, subMarker_cons fence3 (by decide), if_neg hspan,
            subMarker_cons fence3 (by decide), if_neg hp, ih cs hcs]

theorem subFence3_append_nl_fence :
    ∀ (n : ℕ) (x : List Char), x.length ≤ n →
      ∃ w : List Char, (∀ c ∈ w, isPySpace c = true) ∧
        subMarker fence3 (x ++ '\n' :: fence3) = subMarker fence3 x ++ w := by
  intro n
  induction n with
  | zero =>
    intro x hx
    have hnil : x = [] := by
      cases x with
      | nil => rfl
      | cons c cs => simp at hx
    subst hnil
    exact ⟨['\n'], by decide, by decide⟩
  | succ n ih =>
    intro x hx
    cases x with
    | nil => exact ⟨['\n'], by decide, by decide⟩
    | cons c cs =>
      have hcs : cs.length ≤ n := by
        simp only [List.length_cons] at hx
        omega
      by_cases hp : fence3.isPrefixOf (c :: cs) = true
      · obtain ⟨rest, hrest⟩ := isPrefixOf_iff_exists_append.mp hp
        have heq : (c :: cs) ++ '\n' :: fence3 = fence3 ++ (rest ++ '\n' :: fence3) := by
          rw [hrest, List.append_assoc]
        rw [heq, subMarker_append_marker fence3 (by decide),
          hrest, subMarker_append_marker fence3 (by decide)]
        by_cases hall : (rest.dropWhile isPySpace).isEmpty = true
        · have hrw : rest.dropWhile isPySpace = [] := List.isEmpty_iff.mp hall
          have h1 : (rest ++ '\n' :: fence3).dropWhile isPySpace =
              ('\n' :: fence3).dropWhile isPySpace := by
            rw [List.dropWhile_append, if_pos hall]
          rw [h1, hrw]
          exact ⟨[], by simp, by decide⟩
        · have h1 : (rest ++ '\n' :: fence3).dropWhile isPySpace =
              rest.dropWhile isPySpace ++ '\n' :: fence3 := by
            rw [List.dropWhile_append, if_neg hall]
          rw [h1]
          apply ih
          have hlr : (c :: cs).length = fence3.length + rest.length := by
            rw [hrest, List.length_append]
          have hsub : (rest.dropWhile isPySpace).length ≤ rest.length :=
            (List.dropWhile_sublist _).length_le
          simp only [List.length_cons] at hlr hx
          have hf3 : fence3.length = 3 := by decide
          omega
      · have hspan : ¬ fence3.isPrefixOf ((c :: cs) ++ '\n' :: fence3) = true := by
          intro h
          by_cases hlen : (c :: cs).length < fence3.length
          · exact no_span_newline fence3 (by decide) _ _ hlen h
          · exact hp (fence3_fits_inside (by omega) h)
        rw [List.cons_append] at hspan
        rw [List.cons_append, subMarker_cons fence3 (by decide), if_neg hspan,
          subMarker_cons fence3 (by decide), if_neg hp]
        obtain ⟨w, hw, hweq⟩ := ih cs hcs
        exact ⟨w, hw, by rw [hweq]; rfl⟩

theorem subMarker_allws (m : List Char) (hm : m ≠ [])
    (hhead : ∀ (c : Char) (t : List Char), m.isPrefixOf (c :: t) = true → isPySpace c = false)
    (l : List Char) (hl : ∀ c ∈ l, isPySpace c = true) : subMarker m l = l := by
  have h := subMarker_ws_append m hm hhead l [] hl
  simpa [subMarker_nil] using h

theorem pyStrip_ws_append (w z : List Char) (hw : ∀ c ∈ w, isPySpace c = true) :
    pyStrip (w ++ z) = pyStrip z := by
  unfold pyStrip
  rw [List.dropWhile_append_of_pos hw]

theorem pyStrip_append_ws (z w : List Char) (hw : ∀ c ∈ w, isPySpace c = true) :
    pyStrip (z ++ w) = pyStrip z := by
  unfold pyStrip
  by_cases h : (z.dropWhile isPySpace).isEmpty = true
  · have hz : z.dropWhile isPySpace = [] := List.isEmpty_iff.mp h
    have hwnil : w.dropWhile isPySpace = [] := by
      rw [List.dropWhile_eq_nil_iff]
      exact hw
    rw [List.dropWhile_append, if_pos h, hz, hwnil]
  · rw [List.dropWhile_append, if_neg h, List.reverse_append,
      List.dropWhile_append_of_pos (fun c hc => hw c (List.mem_reverse.mp hc))]

theorem pyStrip_allws (l : List Char) (hl : ∀ c ∈ l, isPySpace c = true) :
    pyStrip l = [] := by
  unfold pyStrip
  have hz : l.dropWhile isPySpace = [] := by
    rw [List.dropWhile_eq_nil_iff]
    exact hl
  rw [hz]
  rfl

theorem cleanFence_dropWhile (s : List Char) :
    pyStrip (subMarker fence3 (subMarker fenceJson (s.dropWhile isPySpace))) =
      pyStrip (subMarker fence3 (subMarker fenceJson s)) := by
  conv_rhs => rw [← List.takeWhile_append_dropWhile isPySpace s]
  rw [subMarker_ws_append fenceJson (by decide) (fun c t h => fenceJson_head_not_space h)
      _ _ (fun c hc => List.mem_takeWhile_imp hc),
    subMarker_ws_append fence3 (by decide) (fun c t h => fence3_head_not_space h)
      _ _ (fun c hc => List.mem_takeWhile_imp hc),
    pyStrip_ws_append _ _ (fun c hc => List.mem_takeWhile_imp hc)]

theorem cleanFence_wrap (s : List Char) : cleanFence (wrapJsonFence s) = cleanFence s := by
  show pyStrip (subMarker fence3 (subMarker fenceJson
      (fenceJson ++ '\n' :: (s ++ '\n' :: fence3)))) = cleanFence s
  rw [subMarker_append_marker fenceJson (by decide),
    List.dropWhile_cons_of_pos (by decide : isPySpace '\n' = true)]
  by_cases hall : (s.dropWhile isPySpace).isEmpty = true
  · have hrw : s.dropWhile isPySpace = [] := List.isEmpty_iff.mp hall
    have hsw : ∀ c ∈ s, isPySpace c = true := by
      rw [← List.dropWhile_eq_nil_iff]
      exact hrw
    rw [List.dropWhile_append, if_pos hall]
    have h2 : List.dropWhile isPySpace ('\n' :: fence3) = fence3 := by decide
    rw [h2]
    have h3 : pyStrip (subMarker fence3 (subMarker fenceJson fence3)) = [] := by decide
    rw [h3]
    show ([] : List Char) = cleanFence s
    unfold cleanFence
    rw [subMarker_allws fenceJson (by decide) (fun c t h => fenceJson_head_not_space h) s hsw,
      subMarker_allws fence3 (by decide) (fun c t h => fence3_head_not_space h) s hsw,
      pyStrip_allws s hsw]
  · rw [List.dropWhile_append, if_neg hall]
    rcases subJson_append_suffix (s.dropWhile isPySpace).length _ le_rfl with h | h
    · rw [h]
      obtain ⟨w, hw, hweq⟩ := subFence3_append_nl_fence
        (subMarker fenceJson (s.dropWhile isPySpace)).length _ le_rfl
      rw [hweq, pyStrip_append_ws _ w hw]
      exact cleanFence_dropWhile s
    · rw [h, subFence3_append_fence
        (subMarker fenceJson (s.dropWhile isPySpace)).length _ le_rfl]
      exact cleanFence_dropWhile s

theorem runAttempts_all_retryable (call : ℕ → GeminiResult) :
    ∀ (remaining attempt : ℕ), 1 ≤ remaining →
      (∀ i, attempt ≤ i → i < attempt + remaining →
        hasError (call i) = true ∧ getRetry (call i) = true) →
      runAttempts call attempt remaining =
        (call (attempt + remaining - 1),
          (List.range' attempt (remaining - 1)).map (fun j => 2 ^ j),
          remaining) := by
  intro remaining
  induction remaining with
  | zero => intro attempt h; omega
  | succ rem ih =>
    intro attempt _ hcall
    have hthis := hcall attempt le_rfl (by omega)
    show runAttempts call attempt (rem + 1) = _
    simp only [runAttempts]
    rw [if_neg (by rw [hthis.1]; simp), if_neg (by rw [hthis.2]; simp)]
    cases rem with
    | zero =>
      rw [if_neg (lt_irrefl 0)]
      simp
    | succ rem2 =>
      rw [if_pos (by omega : 0 < rem2 + 1)]
      rw [ih (attempt + 1) (by omega) (fun i h1 h2 => hcall i (by omega) (by omega))]
      have hidx : attempt + 1 + (rem2 + 1) - 1 = attempt + (rem2 + 1 + 1) - 1 := by omega
      have hrng : List.range' attempt (rem2 + 1 + 1 - 1) =
          attempt :: List.range' (attempt + 1) (rem2 + 1 - 1) := by
        have : rem2 + 1 + 1 - 1 = (rem2 + 1 - 1) + 1 := by omega
        rw [this, List.range'_succ]
      rw [hrng]
      simp [hidx]

theorem pyEqStr_true_iff (x : JVal) (s : String) : pyEqStr x s = true ↔ x = .jstr s := by
  cases x <;> simp [pyEqStr]

/-- C7: for every payload, parsing the payload wrapped in markdown
code-fence markers yields exactly the same result as parsing the
unwrapped payload, for any structural parser applied after the
stripping step of parse_json_safely. -/
theorem c7_fenced_payload_parses_identically {α : Type} (loads : List Char → Option α)
    (payload : List Char) :
    parse_json_safely loads (wrapJsonFence payload) = parse_json_safely loads payload := by
  unfold parse_json_safely
  rw [cleanFence_wrap]

/-- C3 counterexample: a rate-limited outcome with a 5-second hint is
returned after a single attempt with an empty wait trace, so the loop
does not perform one wait of the supplied duration. -/
theorem c3_rate_limited_counterexample :
    analyze_feedback_with_retry (fun _ => GeminiResult.rateLimited 5) 3 =
      (GeminiResult.rateLimited 5, [], 1) ∧ ([] : List ℕ) ≠ [5] :=
  ⟨rfl, by decide⟩

/-- C3 amended: a rate-limited first outcome is returned to the caller
immediately, with no wait and no further attempt; the retry loop only
re-enters on outcomes whose dict carries retry set to True, which the
rate-limited dict does not, and the retryAfterSeconds hint is never
read by the loop. -/
theorem c3_rate_limited_returns_immediately (call : ℕ → GeminiResult) (r : ℕ)
    (h : call 0 = GeminiResult.rateLimited r) :
    analyze_feedback_with_retry call 3 = (GeminiResult.rateLimited r, [], 1) := by
  show runAttempts call 0 3 = _
  simp only [runAttempts, h]
  rfl

theorem c3_rate_limited_returns_immediately_witness :
    analyze_feedback_with_retry (fun _ => GeminiResult.rateLimited 7) 3 =
      (GeminiResult.rateLimited 7, [], 1) :=
  c3_rate_limited_returns_immediately (fun _ => GeminiResult.rateLimited 7) 7 rfl

/-- C8: for a classifier whose outcome is retryable on every attempt,
the wait recorded before re-attempt number i + 1 is 2 ^ i seconds (the
trace is the list 2 ^ 0, 2 ^ 1, ... of length max_retries - 1, so no
wait follows the final permitted attempt), and every permitted attempt
is used. -/
theorem c8_exponential_backoff (call : ℕ → GeminiResult) (max_retries : ℕ)
    (h1 : 1 ≤ max_retries)
    (h2 : ∀ i, i < max_retries → hasError (call i) = true ∧ getRetry (call i) = true) :
    analyze_feedback_with_retry call max_retries =
      (call (max_retries - 1),
        (List.range (max_retries - 1)).map (fun j => 2 ^ j),
        max_retries) := by
  show runAttempts call 0 max_retries = _
  rw [runAttempts_all_retryable call max_retries 0 h1 (fun i _ hlt => h2 i (by omega)),
    List.range_eq_range']
  simp

theorem c8_exponential_backoff_witness :
    analyze_feedback_with_retry (fun _ => GeminiResult.connectionError) 3 =
      (GeminiResult.connectionError, [1, 2], 3) := by
  rw [c8_exponential_backoff (fun _ => GeminiResult.connectionError) 3 (by omega)
    (fun i _ => ⟨rfl, rfl⟩)]
  rfl

theorem find?_map_setStatusReviewed (l : List FeedbackRow) (fid : ℕ) :
    (l.map (setStatusReviewed fid)).find? (fun f => f.id == fid) =
      (l.find? (fun f => f.id == fid)).map (setStatusReviewed fid) := by
  rw [List.find?_map]
  have hfun : ((fun f => f.id == fid) ∘ setStatusReviewed fid) =
      (fun f : FeedbackRow => f.id == fid) := by
    funext f
    by_cases h : (f.id == fid) = true <;>
      simp [Function.comp, setStatusReviewed, h]
  rw [hfun]

theorem find?_analyses_append (l : List AnalysisRow) (fid : ℕ) (row : AnalysisRow)
    (hnone : l.find? (fun a => a.feedback_id == fid) = none) (hrow : row.feedback_id = fid) :
    (l ++ [row]).find? (fun a => a.feedback_id == fid) = some row := by
  rw [List.find?_append, hnone]
  simp [List.find?, hrow]

theorem async_missing_case (db : DB) (classify : FeedbackRow → ℕ → GeminiResult) (fid : ℕ)
    (hfb : get_feedback_by_id db fid = none) :
    analyze_feedback_async db classify fid = (db, none, []) := by
  unfold analyze_feedback_async
  rw [hfb]

theorem async_cached_case (db : DB) (classify : FeedbackRow → ℕ → GeminiResult) (fid : ℕ)
    (fb : FeedbackRow) (a : AnalysisRow)
    (hfb : get_feedback_by_id db fid = some fb) (ha : analysisFor db fid = some a) :
    analyze_feedback_async db classify fid = (db, some a, []) := by
  unfold analyze_feedback_async
  rw [hfb, ha]

theorem async_error_case (db : DB) (classify : FeedbackRow → ℕ → GeminiResult) (fid : ℕ)
    (fb : FeedbackRow)
    (hfb : get_feedback_by_id db fid = some fb) (ha : analysisFor db fid = none)
    (hres : ∀ d, (analyze_feedback_with_retry (classify fb) 3).1 ≠ GeminiResult.ok d) :
    analyze_feedback_async db classify fid = (db, none, []) := by
  unfold analyze_feedback_async
  simp only [hfb, ha]

theorem async_ok_case (db : DB) (classify : FeedbackRow → ℕ → GeminiResult) (fid : ℕ)
    (fb : FeedbackRow) (data : AnalysisData)
    (hfb : get_feedback_by_id db fid = some fb) (ha : analysisFor db fid = none)
    (hres : (analyze_feedback_with_retry (classify fb) 3).1 = GeminiResult.ok data) :
    analyze_feedback_async db classify fid =
      ({ feedbacks := db.feedbacks.map (setStatusReviewed fid)
         analyses := db.analyses ++ [mkAnalysisRow fid data] },
        some (mkAnalysisRow fid data), [PipeEvent.commit]) := by
  unfold analyze_feedback_async
  simp only [hfb, ha, hres]

theorem rowsFor_zero_of_analysisFor_none (db : DB) (fid : ℕ)
    (ha : analysisFor db fid = none) :
    db.analyses.filter (fun a => a.feedback_id == fid) = [] := by
  rw [List.filter_eq_nil_iff]
  intro a hal
  have := List.find?_eq_none.mp ha a hal
  simpa using this

/-- C1: a record that already owns an AnalysisResult is returned
unchanged by the enrichment operation with no write and no event, and
running the enrichment twice in sequence returns the same value both
times while never leaving more than one AnalysisResult row for the
record. -/
theorem c1_enrichment_idempotent (db : DB) (classify : FeedbackRow → ℕ → GeminiResult)
    (fid : ℕ) :
    ((∃ fb, get_feedback_by_id db fid = some fb) →
      ∀ a, analysisFor db fid = some a →
        analyze_feedback_async db classify fid = (db, some a, [])) ∧
    (rowsFor db fid ≤ 1 →
      (analyze_feedback_async (analyze_feedback_async db classify fid).1 classify fid).2.1 =
        (analyze_feedback_async db classify fid).2.1 ∧
      rowsFor (analyze_feedback_async (analyze_feedback_async db classify fid).1 classify fid).1
        fid ≤ 1) := by
  constructor
  · rintro ⟨fb, hfb⟩ a ha
    exact async_cached_case db classify fid fb a hfb ha
  · intro hrows
    cases hfb : get_feedback_by_id db fid with
    | none =>
      have h1 := async_missing_case db classify fid hfb
      constructor
      · simp [h1]
      · simp only [h1]
        exact hrows
    | some fb =>
      cases ha : analysisFor db fid with
      | some a =>
        have h1 := async_cached_case db classify fid fb a hfb ha
        constructor
        · simp [h1]
        · simp only [h1]
          exact hrows
      | none =>
        by_cases hok : ∃ d, (analyze_feedback_with_retry (classify fb) 3).1 = GeminiResult.ok d
        · obtain ⟨data, hres⟩ := hok
          have h1 := async_ok_case db classify fid fb data hfb ha hres
          have h2fb : get_feedback_by_id
              (DB.mk (db.feedbacks.map (setStatusReviewed fid))
                (db.analyses ++ [mkAnalysisRow fid data])) fid =
              some (setStatusReviewed fid fb) := by
            show (db.feedbacks.map (setStatusReviewed fid)).find? (fun f => f.id == fid) = _
            rw [find?_map_setStatusReviewed]
            have hfb2 : db.feedbacks.find? (fun f => f.id == fid) = some fb := hfb
            rw [hfb2]
            rfl
          have h2an : analysisFor
              (DB.mk (db.feedbacks.map (setStatusReviewed fid))
                (db.analyses ++ [mkAnalysisRow fid data])) fid =
              some (mkAnalysisRow fid data) := by
            show (db.analyses ++ [mkAnalysisRow fid data]).find? (fun a => a.feedback_id == fid) = _
            exact find?_analyses_append db.analyses fid (mkAnalysisRow fid data) ha rfl
          have h2 := async_cached_case _ classify fid _ _ h2fb h2an
          constructor
          · rw [h1]
            simp only [h2]
          · rw [h1]
            simp only [h2]
            show rowsFor (DB.mk (db.feedbacks.map (setStatusReviewed fid))
              (db.analyses ++ [mkAnalysisRow fid data])) fid ≤ 1
            unfold rowsFor
            show ((db.analyses ++ [mkAnalysisRow fid data]).filter
              (fun a => a.feedback_id == fid)).length ≤ 1
            rw [List.filter_append, rowsFor_zero_of_analysisFor_none db fid ha]
            simp [List.filter, mkAnalysisRow]
        · have h1 := async_error_case db classify fid fb hfb ha
            (fun d hd => hok ⟨d, hd⟩)
          constructor
          · simp [h1]
          · simp only [h1]
            exact hrows

theorem c1_enrichment_idempotent_witness :
    analyze_feedback_async (DB.mk [sampleFeedback] [sampleAnalysis])
        (fun _ _ => GeminiResult.connectionError) 1 =
      (DB.mk [sampleFeedback] [sampleAnalysis], some sampleAnalysis, []) ∧
    (analyze_feedback_async
        (analyze_feedback_async (DB.mk [sampleFeedback] [])
          (fun _ _ => GeminiResult.ok sampleCriticalData) 1).1
        (fun _ _ => GeminiResult.ok sampleCriticalData) 1).2.1 =
      (analyze_feedback_async (DB.mk [sampleFeedback] [])
        (fun _ _ => GeminiResult.ok sampleCriticalData) 1).2.1 ∧
    rowsFor (analyze_feedback_async
        (analyze_feedback_async (DB.mk [sampleFeedback] [])
          (fun _ _ => GeminiResult.ok sampleCriticalData) 1).1
        (fun _ _ => GeminiResult.ok sampleCriticalData) 1).1 1 ≤ 1 := by
  refine ⟨?_, ?_, ?_⟩
  · exact (c1_enrichment_idempotent (DB.mk [sampleFeedback] [sampleAnalysis])
      (fun _ _ => GeminiResult.connectionError) 1).1 ⟨sampleFeedback, rfl⟩ sampleAnalysis rfl
  · exact ((c1_enrichment_idempotent (DB.mk [sampleFeedback] [])
      (fun _ _ => GeminiResult.ok sampleCriticalData) 1).2 (by decide)).1
  · exact ((c1_enrichment_idempotent (DB.mk [sampleFeedback] [])
      (fun _ _ => GeminiResult.ok sampleCriticalData) 1).2 (by decide)).2

/-- C2: with a classifier stub that is retryable-transient on every
attempt, exactly 3 classifier attempts occur and no AnalysisResult is
created, as the claim states; but the record does not end in the
analysis_failed status: the background task invokes the undefined
method FeedbackService.mark_analysis_failed and crashes, leaving the
record status pending_analysis. -/
theorem c2_transient_exhaustion_behavior :
    (analyze_feedback_with_retry (fun _ => GeminiResult.connectionError) 3).2.2 = 3 ∧
    analyze_feedback_background (DB.mk [sampleFeedback] [])
        (fun _ _ => GeminiResult.connectionError) 1 =
      (DB.mk [sampleFeedback] [], [], true) ∧
    rowsFor (analyze_feedback_background (DB.mk [sampleFeedback] [])
        (fun _ _ => GeminiResult.connectionError) 1).1 1 = 0 ∧
    statusOf (analyze_feedback_background (DB.mk [sampleFeedback] [])
        (fun _ _ => GeminiResult.connectionError) 1).1 1 = some "pending_analysis" ∧
    some "pending_analysis" ≠ some "analysis_failed" := by
  refine ⟨rfl, rfl, rfl, rfl, ?_⟩
  intro h
  have h2 := Option.some.inj h
  exact absurd h2 (by decide)

/-- C4: on a record with no prior AnalysisResult, no notification event
ever precedes the commit in the background-task trace (in particular a
failed enrichment emits nothing), and when the enrichment succeeds the
committed state reached before any notification contains the new
AnalysisResult row and the reviewed status. -/
theorem c4_notifications_only_after_commit (db : DB)
    (classify : FeedbackRow → ℕ → GeminiResult) (fid : ℕ)
    (hfresh : analysisFor db fid = none) :
    ((analyze_feedback_background db classify fid).2.1.takeWhile
      (fun e => !e.isCommit)).all (fun e => !e.isEmit) = true ∧
    (∀ a, (analyze_feedback_async db classify fid).2.1 = some a →
      analysisFor (analyze_feedback_background db classify fid).1 fid = some a ∧
      statusOf (analyze_feedback_background db classify fid).1 fid = some "reviewed") := by
  cases hfb : get_feedback_by_id db fid with
  | none =>
    have h1 := async_missing_case db classify fid hfb
    have hb : analyze_feedback_background db classify fid = (db, [], true) := by
      unfold analyze_feedback_background
      rw [h1]
    constructor
    · simp [hb]
    · intro a ha2
      rw [h1] at ha2
      exact absurd ha2 (by simp)
  | some fb =>
    by_cases hok : ∃ d, (analyze_feedback_with_retry (classify fb) 3).1 = GeminiResult.ok d
    · obtain ⟨data, hres⟩ := hok
      have h1 := async_ok_case db classify fid fb data hfb hfresh hres
      have hfbL : db.feedbacks.find? (fun f => f.id == fid) = some fb := hfb
      have hid0 := List.find?_some hfbL
      have hid : (fb.id == fid) = true := hid0
      have h2fb : get_feedback_by_id
          (DB.mk (db.feedbacks.map (setStatusReviewed fid))
            (db.analyses ++ [mkAnalysisRow fid data])) fid =
          some (setStatusReviewed fid fb) := by
        show (db.feedbacks.map (setStatusReviewed fid)).find? (fun f => f.id == fid) = _
        rw [find?_map_setStatusReviewed]
        have hfb2 : db.feedbacks.find? (fun f => f.id == fid) = some fb := hfb
        rw [hfb2]
        rfl
      have h2an : analysisFor
          (DB.mk (db.feedbacks.map (setStatusReviewed fid))
            (db.analyses ++ [mkAnalysisRow fid data])) fid =
          some (mkAnalysisRow fid data) := by
        show (db.analyses ++ [mkAnalysisRow fid data]).find? (fun a => a.feedback_id == fid) = _
        exact find?_analyses_append db.analyses fid (mkAnalysisRow fid data) hfresh rfl
      constructor
      · simp only [analyze_feedback_background, h1]
        simp [List.takeWhile, PipeEvent.isCommit]
      · intro a ha2
        rw [h1] at ha2
        have hrow : mkAnalysisRow fid data = a := by simpa using ha2
        subst hrow
        constructor
        · simp only [analyze_feedback_background, h1]
          exact h2an
        · simp only [analyze_feedback_background, h1]
          simp [statusOf, h2fb, setStatusReviewed, hid]
    · have h1 := async_error_case db classify fid fb hfb hfresh (fun d hd => hok ⟨d, hd⟩)
      have hb : analyze_feedback_background db classify fid = (db, [], true) := by
        unfold analyze_feedback_background
        rw [h1]
      constructor
      · simp [hb]
      · intro a ha2
        rw [h1] at ha2
        exact absurd ha2 (by simp)

theorem background_filter_counts (db : DB) (classify : FeedbackRow → ℕ → GeminiResult)
    (fid : ℕ) (db2 : DB) (a : AnalysisRow) (tr : List PipeEvent) (f0 : FeedbackRow)
    (h1 : analyze_feedback_async db classify fid = (db2, some a, tr))
    (hfb2 : get_feedback_by_id db2 fid = some f0)
    (hu : tr.filter (fun e => e.isUrgentAlert) = [])
    (hc : tr.filter (fun e => e.isAnalysisComplete) = []) :
    ((analyze_feedback_background db classify fid).2.1.filter
      (fun e => e.isUrgentAlert)).length =
        (if pyEqStr a.urgency "critical" = true then 1 else 0) ∧
    ((analyze_feedback_background db classify fid).2.1.filter
      (fun e => e.isAnalysisComplete)).length = 1 := by
  unfold analyze_feedback_background
  rw [h1]
  have hu2 : ∀ e ∈ tr, e.isUrgentAlert = false := fun e he => by
    simpa using List.filter_eq_nil_iff.mp hu e he
  have hc2 : ∀ e ∈ tr, e.isAnalysisComplete = false := fun e he => by
    simpa using List.filter_eq_nil_iff.mp hc e he
  cases hcrit : pyEqStr a.urgency "critical" with
  | true =>
    simp [hcrit, hfb2, List.filter_append, List.filter, hu2, hc2,
      PipeEvent.isUrgentAlert, PipeEvent.isAnalysisComplete]
    exact ⟨fun e he => hu2 e he, fun e he => hc2 e he⟩
  | false =>
    simp [hcrit, List.filter_append, List.filter, hu2, hc2,
      PipeEvent.isUrgentAlert, PipeEvent.isAnalysisComplete]
    exact ⟨fun e he => hu2 e he, fun e he => hc2 e he⟩

/-- C5: whenever the enrichment returns an analysis, the background
task emits exactly one analysis-complete event; it emits exactly one
urgent-alert event when the stored urgency is the string critical and
none when it is any other value (such as medium). -/
theorem c5_urgent_alert_gating (db : DB) (classify : FeedbackRow → ℕ → GeminiResult)
    (fid : ℕ) (a : AnalysisRow)
    (h : (analyze_feedback_async db classify fid).2.1 = some a) :
    (a.urgency = JVal.jstr "critical" →
      ((analyze_feedback_background db classify fid).2.1.filter
        (fun e => e.isUrgentAlert)).length = 1) ∧
    (a.urgency ≠ JVal.jstr "critical" →
      ((analyze_feedback_background db classify fid).2.1.filter
        (fun e => e.isUrgentAlert)).length = 0) ∧
    ((analyze_feedback_background db classify fid).2.1.filter
      (fun e => e.isAnalysisComplete)).length = 1 := by
  cases hfb : get_feedback_by_id db fid with
  | none =>
    have h1 := async_missing_case db classify fid hfb
    rw [h1] at h
    exact absurd h (by simp)
  | some fb =>
    cases ha : analysisFor db fid with
    | some a0 =>
      have h1 := async_cached_case db classify fid fb a0 hfb ha
      have ha0 : a0 = a := by
        rw [h1] at h
        simpa using h
      subst ha0
      obtain ⟨hcu, hcc⟩ := background_filter_counts db classify fid db a0 [] fb h1 hfb rfl rfl
      refine ⟨?_, ?_, hcc⟩
      · intro hcrit
        rw [hcu, if_pos ((pyEqStr_true_iff _ _).mpr hcrit)]
      · intro hncrit
        rw [hcu, if_neg (fun hb => hncrit ((pyEqStr_true_iff _ _).mp hb))]
    | none =>
      by_cases hok : ∃ d, (analyze_feedback_with_retry (classify fb) 3).1 = GeminiResult.ok d
      · obtain ⟨data, hres⟩ := hok
        have h1 := async_ok_case db classify fid fb data hfb ha hres
        have hrow : mkAnalysisRow fid data = a := by
          rw [h1] at h
          simpa using h
        have h2fb : get_feedback_by_id
            (DB.mk (db.feedbacks.map (setStatusReviewed fid))
              (db.analyses ++ [mkAnalysisRow fid data])) fid =
            some (setStatusReviewed fid fb) := by
          show (db.feedbacks.map (setStatusReviewed fid)).find? (fun f => f.id == fid) = _
          rw [find?_map_setStatusReviewed]
          have hfbL : db.feedbacks.find? (fun f => f.id == fid) = some fb := hfb
          rw [hfbL]
          rfl
        rw [hrow] at h1 h2fb
        obtain ⟨hcu, hcc⟩ := background_filter_counts db classify fid
          (DB.mk (db.feedbacks.map (setStatusReviewed fid)) (db.analyses ++ [a]))
          a [PipeEvent.commit] (setStatusReviewed fid fb) h1 h2fb rfl rfl
        refine ⟨?_, ?_, hcc⟩
        · intro hcrit
          rw [hcu, if_pos ((pyEqStr_true_iff _ _).mpr hcrit)]
        · intro hncrit
          rw [hcu, if_neg (fun hb => hncrit ((pyEqStr_true_iff _ _).mp hb))]
      · have h1 := async_error_case db classify fid fb hfb ha (fun d hd => hok ⟨d, hd⟩)
        rw [h1] at h
        exact absurd h (by simp)

theorem c5_urgent_alert_gating_witness :
    ((analyze_feedback_background (DB.mk [sampleFeedback] [])
        (fun _ _ => GeminiResult.ok sampleCriticalData) 1).2.1.filter
      (fun e => e.isUrgentAlert)).length = 1 ∧
    ((analyze_feedback_background (DB.mk [sampleFeedback] [])
        (fun _ _ => GeminiResult.ok sampleCriticalData) 1).2.1.filter
      (fun e => e.isAnalysisComplete)).length = 1 ∧
    ((analyze_feedback_background (DB.mk [sampleFeedback] [])
        (fun _ _ => GeminiResult.ok sampleMediumData) 1).2.1.filter
      (fun e => e.isUrgentAlert)).length = 0 := by
  have hcrit := c5_urgent_alert_gating (DB.mk [sampleFeedback] [])
    (fun _ _ => GeminiResult.ok sampleCriticalData) 1 (mkAnalysisRow 1 sampleCriticalData) rfl
  have hmed := c5_urgent_alert_gating (DB.mk [sampleFeedback] [])
    (fun _ _ => GeminiResult.ok sampleMediumData) 1 (mkAnalysisRow 1 sampleMediumData) rfl
  refine ⟨hcrit.1 rfl, hcrit.2.2, hmed.2.1 ?_⟩
  intro hx
  exact absurd (JVal.jstr.inj hx) (by decide)

theorem c4_notifications_only_after_commit_witness :
    ((analyze_feedback_background (DB.mk [sampleFeedback] [])
        (fun _ _ => GeminiResult.ok sampleCriticalData) 1).2.1.takeWhile
      (fun e => !e.isCommit)).all (fun e => !e.isEmit) = true ∧
    analysisFor (analyze_feedback_background (DB.mk [sampleFeedback] [])
        (fun _ _ => GeminiResult.ok sampleCriticalData) 1).1 1 =
      some (mkAnalysisRow 1 sampleCriticalData) ∧
    statusOf (analyze_feedback_background (DB.mk [sampleFeedback] [])
        (fun _ _ => GeminiResult.ok sampleCriticalData) 1).1 1 = some "reviewed" := by
  have h := c4_notifications_only_after_commit (DB.mk [sampleFeedback] [])
    (fun _ _ => GeminiResult.ok sampleCriticalData) 1 rfl
  exact ⟨h.1, (h.2 (mkAnalysisRow 1 sampleCriticalData) rfl).1,
    (h.2 (mkAnalysisRow 1 sampleCriticalData) rfl).2⟩

/-- C6: a classifier payload missing the sentiment, confidence,
emotions, urgency, categories, medical-concerns and key-points fields
normalizes successfully (no failure), with sentiment neutral,
confidence 1/2, urgency low, every list-typed field empty, and all four
medical-concerns sub-fields equal to the empty list. -/
theorem c6_missing_field_defaults (payload : List (String × JVal))
    (hsent : pyGet payload "sentiment" = none)
    (hconf : pyGet payload "confidence_score" = none)
    (hemo : pyGet payload "emotions" = none)
    (hurg : pyGet payload "urgency" = none)
    (hcat : pyGet payload "categories" = none)
    (hmed : pyGet payload "medical_concerns" = none)
    (hkey : pyGet payload "key_points" = none) :
    structureResult payload = some
      { sentiment := JVal.jstr "neutral"
        confidence_score := 1/2
        emotions := JVal.jarr []
        urgency := JVal.jstr "low"
        urgency_reason := none
        urgency_flags := []
        primary_category := none
        subcategories := []
        medical_concerns := some ⟨JVal.jarr [], JVal.jarr [], JVal.jarr [], JVal.jarr []⟩
        actionable_insights := pyGetD payload "actionable_insights" (JVal.jstr "")
        key_points := JVal.jarr [] } := by
  unfold structureResult pyGetD
  rw [hsent, hconf, hemo, hurg, hcat, hmed, hkey]
  rfl

theorem c6_missing_field_defaults_witness :
    structureResult [("extra", JVal.jnull)] = some
      { sentiment := JVal.jstr "neutral"
        confidence_score := 1/2
        emotions := JVal.jarr []
        urgency := JVal.jstr "low"
        urgency_reason := none
        urgency_flags := []
        primary_category := none
        subcategories := []
        medical_concerns := some ⟨JVal.jarr [], JVal.jarr [], JVal.jarr [], JVal.jarr []⟩
        actionable_insights := JVal.jstr ""
        key_points := JVal.jarr [] } := by
  rw [c6_missing_field_defaults [("extra", JVal.jnull)] rfl rfl rfl rfl rfl rfl rfl]
  rfl

/-- C9 counterexample: the analysis-complete event payload carries no
preview field of any kind, for any analyzed record, so the claim that
the AnalysisComplete event carries a first-100-characters preview is
false; its payload is exactly ids and categorical fields. -/
theorem c9_analysis_complete_no_preview_counterexample :
    lookupE (analysis_complete_data 1 sampleAnalysis) "preview" = none ∧
    lookupE (analysis_complete_data 1 sampleAnalysis) "feedback_preview" = none ∧
    analysis_complete_data 1 sampleAnalysis =
      [("feedback_id", EVal.eint 1), ("sentiment", EVal.ejson (JVal.jstr "negative")),
        ("urgency", EVal.ejson (JVal.jstr "low")), ("primary_category", EVal.enull),
        ("confidence_score", EVal.erat (9/10))] :=
  ⟨rfl, rfl, rfl⟩

/-- C9 amended: the new-feedback event carries the first 100 characters
followed by an ellipsis when the text exceeds 100 characters and the
unmodified text otherwise; the urgent-alert event carries the first 200
characters followed by an ellipsis when the text exceeds 200 characters
and the unmodified text otherwise; the analysis-complete event carries
no text preview at all. -/
theorem c9_preview_truncation (fb : FeedbackRow) (a : AnalysisRow) (fid : ℕ) :
    lookupE (new_feedback_data fb) "preview" =
      some (.estr (if fb.feedback_text.length > 100 then fb.feedback_text.take 100 ++ "..."
        else fb.feedback_text)) ∧
    lookupE (urgent_alert_data fb a) "feedback_preview" =
      some (.estr (if fb.feedback_text.length > 200 then fb.feedback_text.take 200 ++ "..."
        else fb.feedback_text)) ∧
    lookupE (analysis_complete_data fid a) "preview" = none ∧
    lookupE (analysis_complete_data fid a) "feedback_preview" = none :=
  ⟨rfl, rfl, rfl, rfl⟩

theorem skipByPriority_none (p : Option String) : skipByPriority p none = false := by
  cases p <;> rfl

theorem skipBySentiment_none (s : Option String) : skipBySentiment s none = false := by
  cases s <;> rfl

theorem skipByCategory_none (c : Option String) : skipByCategory c none = false := by
  cases c <;> rfl

/-- C10: a feedback record without an AnalysisResult passes every
post-query priority/sentiment/category filter and stays in the returned
list, and whenever one of those filters is truthy the returned total is
the length of the filtered current page rather than the count of all
matching records. -/
theorem c10_unanalyzed_pass_filters (db : DB) (department : Option String)
    (start_date end_date : Option ℤ) (priority sentiment category status : Option String)
    (limit offset : ℕ) :
    ((pyTruthyStr priority || pyTruthyStr sentiment || pyTruthyStr category) = true →
      (get_all_feedback db department start_date end_date priority sentiment category status
        limit offset).2 =
      (get_all_feedback db department start_date end_date priority sentiment category status
        limit offset).1.length) ∧
    (∀ f ∈ queryPage db department start_date end_date status limit offset,
      analysisFor db f.id = none →
        f ∈ (get_all_feedback db department start_date end_date priority sentiment category
          status limit offset).1) := by
  constructor
  · intro hcond
    unfold get_all_feedback
    simp only [hcond, if_true]
  · intro f hf hnone
    unfold get_all_feedback
    simp only []
    apply List.mem_filter.mpr
    refine ⟨hf, ?_⟩
    rw [hnone, skipByPriority_none, skipBySentiment_none, skipByCategory_none]
    rfl

theorem c10_unanalyzed_pass_filters_witness :
    (get_all_feedback (DB.mk [sampleFeedback] []) none none none (some "critical") none none
      none 100 0).2 =
      (get_all_feedback (DB.mk [sampleFeedback] []) none none none (some "critical") none none
        none 100 0).1.length ∧
    sampleFeedback ∈ (get_all_feedback (DB.mk [sampleFeedback] []) none none none
      (some "critical") none none none 100 0).1 := by
  have h := c10_unanalyzed_pass_filters (DB.mk [sampleFeedback] []) none none none
    (some "critical") none none none 100 0
  refine ⟨h.1 rfl, h.2 sampleFeedback ?_ rfl⟩
  exact List.Mem.head _
